import Mathlib

/-!
# Verification of the store-locator acquisition and merge pipeline

Shallow embedding of the core of the multi-brand store-locator pipeline:
the identity-resolution merge engine (merge_brands.py), the chain
exclusion filter and geographic-sampling adapter of the Stockist scraper
(scrape_stockist_stores.py), the StoreRocket scraper output path
(scrape_storerocket_stores.py), and the StorePoint multi-endpoint fetch
(test.py).  Python dicts are embedded as association lists in insertion
order (Python dicts preserve insertion order; keys stay unique because an
entry is appended only when lookup fails).  JSON records are embedded as
structures whose `Option` fields distinguish an absent key (`none`) from
a present value.  Fields whose value never influences the verified code
paths are omitted.
-/

namespace StoreLocator

/-- Python truthiness of an optional string value: `None` and the empty
string are falsy. -/
def pyTruthy (o : Option String) : Bool :=
  o.getD "" ≠ ""

/-- Python `a or b` on two strings: `a` unless `a` is empty. -/
def pyOrS (a b : String) : String :=
  if a ≠ "" then a else b

section AssocList

variable {κ α : Type} [DecidableEq κ]

/-- Lookup in an insertion-ordered association list (a Python dict). -/
def alookup : List (κ × α) → κ → Option α
  | [], _ => none
  | e :: m, k => if e.1 = k then some e.2 else alookup m k

/-- The keys of an association list, in insertion order. -/
def akeys (m : List (κ × α)) : List κ :=
  m.map Prod.fst

/-- Apply `f` to the value stored under key `k` (dict value mutation);
keys built by the embedded code are unique, so mapping over all entries
matches the dict update. -/
def aupdate (m : List (κ × α)) (k : κ) (f : α → α) : List (κ × α) :=
  m.map (fun e => if e.1 = k then (e.1, f e.2) else e)

/-- Python dict assignment `m[k] = v`: replace the value of an existing
key in place, else append the new entry at the end. -/
def aupsert (m : List (κ × α)) (k : κ) (v : α) : List (κ × α) :=
  if (alookup m k).isSome then aupdate m k (fun _ => v) else m ++ [(k, v)]

theorem alookup_isSome_iff_mem_akeys (m : List (κ × α)) (k : κ) :
    (alookup m k).isSome ↔ k ∈ akeys m := by
  induction m with
  | nil => simp [alookup, akeys]
  | cons e m ih =>
    by_cases h : e.1 = k
    · simp [alookup, akeys, h]
    · have h' : ¬ k = e.1 := fun hk => h hk.symm
      simp [alookup, akeys, h, h'] at ih ⊢
      exact ih

theorem alookup_eq_none_iff (m : List (κ × α)) (k : κ) :
    alookup m k = none ↔ k ∉ akeys m := by
  rw [← alookup_isSome_iff_mem_akeys]
  cases h : alookup m k <;> simp

theorem akeys_aupdate (m : List (κ × α)) (k : κ) (f : α → α) :
    akeys (aupdate m k f) = akeys m := by
  induction m with
  | nil => rfl
  | cons e m ih =>
    by_cases h : e.1 = k <;> simp [aupdate, akeys, h] at ih ⊢ <;> exact ih

omit [DecidableEq κ] in
theorem akeys_append (m m' : List (κ × α)) :
    akeys (m ++ m') = akeys m ++ akeys m' := by
  simp [akeys]

theorem alookup_append_of_none (m m' : List (κ × α)) (k : κ)
    (h : alookup m k = none) : alookup (m ++ m') k = alookup m' k := by
  induction m with
  | nil => rfl
  | cons e m ih =>
    by_cases he : e.1 = k
    · simp [alookup, he] at h
    · simp [alookup, he] at h ⊢; exact ih h

end AssocList

/-! ## merge_brands.py — identity resolution and merge engine -/

namespace Merge

/-- The `google_places` enrichment payload attached to a record, reduced
to the two fields `get_store_id` reads (`id`, `formattedAddress`). -/
structure GooglePlaces where
  id : Option String
  formattedAddress : Option String
deriving DecidableEq

/-- A raw store record as read from an input JSON file, reduced to the
fields `merge_brands` reads.  `none` means the key is absent. -/
structure MergeStore where
  google_places : Option GooglePlaces
  id : Option String
  name : Option String
  address_line_1 : Option String
deriving DecidableEq

/-- Deterministic stand-in for the Python builtin `hash` applied to the
concatenated name+address string.  The source uses the process-local
string hash; only its determinism within one run matters to the merge,
so any fixed function models it. -/
def pyHash (s : String) : Int :=
  s.data.foldl (fun h c => h * 31 + Int.ofNat c.toNat) 0

/-- merge_brands.py `get_store_id`: Google Places id first, then the
Stockist id namespaced `stockist:`, else a hash of name + address
(address_line_1, or the formatted address when that is empty). -/
def get_store_id (store : MergeStore) : String :=
  let google_places := store.google_places.getD ⟨none, none⟩
  let google_id := google_places.id
  if pyTruthy google_id then "google:" ++ google_id.getD "" else
  let stockist_id := store.id
  if pyTruthy stockist_id then "stockist:" ++ stockist_id.getD "" else
  let name := store.name.getD ""
  let address := pyOrS (store.address_line_1.getD "") (google_places.formattedAddress.getD "")
  "hash:" ++ toString (pyHash (name ++ address))

/-- A canonical store record in the merged directory: the first-seen raw
record plus the accumulated `brands` list and `brand_count`. -/
structure MergedStore where
  store : MergeStore
  brands : List String
  brand_count : Nat
deriving DecidableEq

/-- Per-brand statistics tracked by the merge loop. -/
structure BrandStats where
  total_stores : Nat
  new_stores : Nat
  existing_stores : Nat
deriving DecidableEq

/-- merge_brands.py line 97: a record is kept only when it has a `name`
or an `id` key. -/
def keepStore (s : MergeStore) : Bool :=
  s.name.isSome || s.id.isSome

/-- Merge state: the `all_stores` dict (identity key → canonical record)
and the `brand_stats` dict (brand name → statistics). -/
def MergeState : Type :=
  List (String × MergedStore) × List (String × BrandStats)

/-- The map-only step of the merge loop body (merge_brands.py lines
108-121): on a seen identity key append the brand and bump the count, on
an unseen key insert a fresh canonical record. -/
def processStore (brand : String) (m : List (String × MergedStore))
    (s : MergeStore) : List (String × MergedStore) :=
  match alookup m (get_store_id s) with
  | some _ => aupdate m (get_store_id s)
      (fun ms => ⟨ms.store, ms.brands ++ [brand], ms.brand_count + 1⟩)
  | none => m ++ [(get_store_id s, ⟨s, [brand], 1⟩)]

/-- The merge loop body with statistics (merge_brands.py lines 108-121). -/
def processStoreFull (brand : String) (st : MergeState) (s : MergeStore) :
    MergeState :=
  match alookup st.1 (get_store_id s) with
  | some _ =>
      (aupdate st.1 (get_store_id s)
        (fun ms => ⟨ms.store, ms.brands ++ [brand], ms.brand_count + 1⟩),
       aupdate st.2 brand
        (fun bs => ⟨bs.total_stores, bs.new_stores, bs.existing_stores + 1⟩))
  | none =>
      (st.1 ++ [(get_store_id s, ⟨s, [brand], 1⟩)],
       aupdate st.2 brand
        (fun bs => ⟨bs.total_stores, bs.new_stores + 1, bs.existing_stores⟩))

theorem processStoreFull_fst (brand : String) (st : MergeState) (s : MergeStore) :
    (processStoreFull brand st s).1 = processStore brand st.1 s := by
  unfold processStoreFull processStore
  cases h : alookup st.1 (get_store_id s) <;> rfl

/-- Processing one input dataset (merge_brands.py lines 88-121): filter
to records with a `name` or `id` key, reset this brand statistics entry,
then fold the merge loop body over the kept records. -/
def processDataset (st : MergeState) (input : String × List MergeStore) :
    MergeState :=
  (input.2.filter keepStore).foldl (processStoreFull input.1)
    (st.1, aupsert st.2 input.1 ⟨(input.2.filter keepStore).length, 0, 0⟩)

/-- merge_brands.py `merge_brands`: fold all input datasets (brand name
paired with the file contents, the brand name being derived from the
filename) into the shared `all_stores` and `brand_stats` dicts. -/
def merge_brands (inputs : List (String × List MergeStore)) : MergeState :=
  inputs.foldl processDataset ([], [])

/-- The map component of the merge, with statistics projected away. -/
def mergedMap (inputs : List (String × List MergeStore)) :
    List (String × MergedStore) :=
  inputs.foldl
    (fun m input => (input.2.filter keepStore).foldl (processStore input.1) m)
    []

theorem foldl_processStoreFull_fst (brand : String) (l : List MergeStore) :
    ∀ st : MergeState,
      (l.foldl (processStoreFull brand) st).1 = l.foldl (processStore brand) st.1 := by
  induction l with
  | nil => intro st; rfl
  | cons s l ih =>
    intro st
    rw [List.foldl_cons, List.foldl_cons, ih, processStoreFull_fst]

theorem foldl_processDataset_fst (inputs : List (String × List MergeStore)) :
    ∀ st : MergeState,
      (inputs.foldl processDataset st).1 =
        inputs.foldl
          (fun m input => (input.2.filter keepStore).foldl (processStore input.1) m)
          st.1 := by
  induction inputs with
  | nil => intro st; rfl
  | cons input inputs ih =>
    intro st
    rw [List.foldl_cons, List.foldl_cons, ih]
    unfold processDataset
    rw [foldl_processStoreFull_fst]

theorem merge_brands_fst (inputs : List (String × List MergeStore)) :
    (merge_brands inputs).1 = mergedMap inputs := by
  unfold merge_brands mergedMap
  exact foldl_processDataset_fst inputs ([], [])

/-- Appending a brand to an existing canonical record. -/
def bumpBrand (brand : String) (ms : MergedStore) : MergedStore :=
  ⟨ms.store, ms.brands ++ [brand], ms.brand_count + 1⟩

theorem processStore_of_none (brand : String) (m : List (String × MergedStore))
    (s : MergeStore) (h : alookup m (get_store_id s) = none) :
    processStore brand m s = m ++ [(get_store_id s, ⟨s, [brand], 1⟩)] := by
  unfold processStore
  rw [h]

theorem processStore_of_some (brand : String) (m : List (String × MergedStore))
    (s : MergeStore) (v : MergedStore) (h : alookup m (get_store_id s) = some v) :
    processStore brand m s = aupdate m (get_store_id s) (bumpBrand brand) := by
  unfold processStore
  rw [h]
  rfl

/-- First pass of merging a dataset whose identity keys are all unseen:
each kept record becomes a fresh canonical record, in input order. -/
theorem foldl_processStore_all_new (b : String) (D : List MergeStore) :
    ∀ m : List (String × MergedStore),
      (∀ s ∈ D, alookup m (get_store_id s) = none) →
      (D.map get_store_id).Nodup →
      D.foldl (processStore b) m =
        m ++ D.map (fun s => (get_store_id s, ⟨s, [b], 1⟩)) := by
  induction D with
  | nil => intro m _ _; simp
  | cons s D ih =>
    intro m hnew hnd
    rw [List.map_cons, List.nodup_cons] at hnd
    have h0 : alookup m (get_store_id s) = none := hnew s (List.mem_cons_self s D)
    rw [List.foldl_cons, processStore_of_none b m s h0, ih]
    · simp
    · intro s' hs'
      have hm : alookup m (get_store_id s') = none :=
        hnew s' (List.mem_cons_of_mem _ hs')
      have hne : ¬ get_store_id s = get_store_id s' := by
        intro he
        exact hnd.1 (he ▸ List.mem_map_of_mem get_store_id hs')
      rw [alookup_append_of_none _ _ _ hm]
      simp [alookup, hne]
    · exact hnd.2

/-- Second pass of merging a dataset whose identity keys are all already
present: each kept record bumps its existing canonical record once. -/
theorem foldl_processStore_all_seen (b : String) (D : List MergeStore) :
    ∀ m : List (String × MergedStore),
      (∀ s ∈ D, get_store_id s ∈ akeys m) →
      (D.map get_store_id).Nodup →
      D.foldl (processStore b) m =
        m.map (fun e =>
          if e.1 ∈ D.map get_store_id then (e.1, bumpBrand b e.2) else e) := by
  induction D with
  | nil => intro m _ _; simp
  | cons s D ih =>
    intro m hseen hnd
    rw [List.map_cons, List.nodup_cons] at hnd
    have h0 : (alookup m (get_store_id s)).isSome :=
      (alookup_isSome_iff_mem_akeys m _).2 (hseen s (List.mem_cons_self s D))
    obtain ⟨v, hv⟩ := Option.isSome_iff_exists.1 h0
    rw [List.foldl_cons, processStore_of_some b m s v hv, ih]
    · unfold aupdate
      rw [List.map_map]
      apply List.map_congr_left
      intro e _
      simp only [Function.comp_apply]
      by_cases he : e.1 = get_store_id s
      · have hni : e.1 ∉ D.map get_store_id := he ▸ hnd.1
        rw [if_pos he]
        dsimp only
        rw [if_neg hni,
          if_pos (show e.1 ∈ List.map get_store_id (s :: D) from by
            rw [List.map_cons]
            exact he ▸ List.mem_cons_self _ _)]
      · rw [if_neg he]
        by_cases hm : e.1 ∈ D.map get_store_id
        · rw [if_pos hm,
            if_pos (show e.1 ∈ List.map get_store_id (s :: D) from by
              rw [List.map_cons]
              exact List.mem_cons_of_mem _ hm)]
        · rw [if_neg hm,
            if_neg (show e.1 ∉ List.map get_store_id (s :: D) from by
              rw [List.map_cons]
              intro hc
              rcases List.mem_cons.1 hc with h | h
              · exact he h
              · exact hm h)]
    · intro s' hs'
      rw [akeys_aupdate]
      exact hseen s' (List.mem_cons_of_mem _ hs')
    · exact hnd.2

/-- A raw record used in the concrete scenarios: a Stockist id and a
name, no Google Places payload. -/
def cexStore : MergeStore :=
  ⟨none, some "7", some "Acme Market", none⟩

/-- C1 counterexample: merging the dataset `[cexStore]` twice under the
single brand name `BrandB` gives the one merged store
`brands = [BrandB, BrandB]` and `brand_count = 2`, not `brand_count = 1`
with `brands = [BrandB]`: the brand is appended although already
present. -/
theorem merge_same_dataset_twice_cex :
    (merge_brands [("BrandB", [cexStore]), ("BrandB", [cexStore])]).1 =
      [("stockist:7", ⟨cexStore, ["BrandB", "BrandB"], 2⟩)] ∧
    (⟨cexStore, ["BrandB", "BrandB"], 2⟩ : MergedStore).brand_count ≠ 1 ∧
    (⟨cexStore, ["BrandB", "BrandB"], 2⟩ : MergedStore).brands ≠ ["BrandB"] := by
  refine ⟨by decide, by decide, by decide⟩

/-- C1 amended: when the kept records of `D` have pairwise distinct
identity keys, merging `[D, D]` under one brand `b` yields, for every
store of the merged output, `brands = [b, b]` and `brand_count = 2`
(never 1): a brand name is appended to the brands list unconditionally
whenever the identity key already exists, even when that brand is
already present. -/
theorem merge_same_dataset_twice_amended (b : String) (D : List MergeStore)
    (hnd : ((D.filter keepStore).map get_store_id).Nodup) :
    (merge_brands [(b, D), (b, D)]).1 =
      (D.filter keepStore).map (fun s => (get_store_id s, ⟨s, [b, b], 2⟩)) := by
  rw [merge_brands_fst]
  unfold mergedMap
  rw [List.foldl_cons, List.foldl_cons, List.foldl_nil]
  have h1 : (D.filter keepStore).foldl (processStore b) [] =
      [] ++ (D.filter keepStore).map (fun s => (get_store_id s, ⟨s, [b], 1⟩)) :=
    foldl_processStore_all_new b _ [] (fun s _ => rfl) hnd
  rw [h1, List.nil_append]
  have h2 := foldl_processStore_all_seen b (D.filter keepStore)
    ((D.filter keepStore).map (fun s => (get_store_id s, ⟨s, [b], 1⟩)))
    (fun s hs => by
      simp only [akeys, List.map_map]
      exact List.mem_map_of_mem _ hs) hnd
  rw [h2, List.map_map]
  apply List.map_congr_left
  intro s hs
  have hmem : get_store_id s ∈ (D.filter keepStore).map get_store_id :=
    List.mem_map_of_mem get_store_id hs
  simp [Function.comp, hmem, bumpBrand]

/-- Witness for the amended C1 theorem at a concrete one-record dataset. -/
theorem merge_same_dataset_twice_amended_witness :
    ((([cexStore].filter keepStore).map get_store_id).Nodup) ∧
    (merge_brands [("BrandB", [cexStore]), ("BrandB", [cexStore])]).1 =
      ([cexStore].filter keepStore).map
        (fun s => (get_store_id s, ⟨s, ["BrandB", "BrandB"], 2⟩)) :=
  ⟨by decide, merge_same_dataset_twice_amended "BrandB" [cexStore] (by decide)⟩

/-- The invariant of claim C6 over the `all_stores` map. -/
def countInv (m : List (String × MergedStore)) : Prop :=
  ∀ e ∈ m, e.2.brand_count = e.2.brands.length

theorem countInv_processStore (b : String) (m : List (String × MergedStore))
    (s : MergeStore) (h : countInv m) : countInv (processStore b m s) := by
  unfold processStore
  cases hl : alookup m (get_store_id s) with
  | none =>
    intro e he
    rcases List.mem_append.1 he with h1 | h1
    · exact h e h1
    · rw [List.mem_singleton.1 h1]
      rfl
  | some v =>
    intro e he
    unfold aupdate at he
    rcases List.mem_map.1 he with ⟨e0, he0, heq⟩
    rw [← heq]
    by_cases h0 : e0.1 = get_store_id s
    · rw [if_pos h0]
      have := h e0 he0
      simp [this]
    · rw [if_neg h0]
      exact h e0 he0

theorem countInv_foldl (b : String) (l : List MergeStore) :
    ∀ m, countInv m → countInv (l.foldl (processStore b) m) := by
  induction l with
  | nil => intro m h; exact h
  | cons s l ih =>
    intro m h
    rw [List.foldl_cons]
    exact ih _ (countInv_processStore b m s h)

theorem countInv_mergedMap_aux (inputs : List (String × List MergeStore)) :
    ∀ m, countInv m →
      countInv (inputs.foldl
        (fun m input => (input.2.filter keepStore).foldl (processStore input.1) m) m) := by
  induction inputs with
  | nil => intro m h; exact h
  | cons input inputs ih =>
    intro m h
    rw [List.foldl_cons]
    exact ih _ (countInv_foldl input.1 _ m h)

/-- C6: after merging any sequence of input datasets, every store of the
merged directory has `brand_count` equal to the length of its `brands`
list (the two fields are created and updated together). -/
theorem merged_brand_count_eq_brands_length
    (inputs : List (String × List MergeStore)) (sid : String) (ms : MergedStore)
    (h : (sid, ms) ∈ (merge_brands inputs).1) :
    ms.brand_count = ms.brands.length := by
  rw [merge_brands_fst] at h
  exact countInv_mergedMap_aux inputs [] (fun e he => absurd he (List.not_mem_nil e)) (sid, ms) h

/-- Witness for C6 at a one-dataset merge. -/
theorem merged_brand_count_eq_brands_length_witness :
    ("stockist:7", (⟨cexStore, ["BrandA"], 1⟩ : MergedStore)) ∈
      (merge_brands [("BrandA", [cexStore])]).1 ∧
    (⟨cexStore, ["BrandA"], 1⟩ : MergedStore).brand_count =
      (⟨cexStore, ["BrandA"], 1⟩ : MergedStore).brands.length :=
  ⟨by decide,
   merged_brand_count_eq_brands_length [("BrandA", [cexStore])] "stockist:7"
     ⟨cexStore, ["BrandA"], 1⟩ (by decide)⟩

/-- C5: `get_store_id` derives the identity key by the first matching
rule of a fixed priority order: the Google Places enrichment id when
truthy; else the platform record id namespaced `stockist:`; else a
digest of name concatenated with address_line_1 (or, when that is
empty, the formatted address of the enrichment payload). -/
theorem get_store_id_priority (s : MergeStore) :
    (pyTruthy (s.google_places.getD ⟨none, none⟩).id = true →
      get_store_id s = "google:" ++ (s.google_places.getD ⟨none, none⟩).id.getD "") ∧
    (pyTruthy (s.google_places.getD ⟨none, none⟩).id = false →
      pyTruthy s.id = true →
      get_store_id s = "stockist:" ++ s.id.getD "") ∧
    (pyTruthy (s.google_places.getD ⟨none, none⟩).id = false →
      pyTruthy s.id = false →
      get_store_id s = "hash:" ++ toString (pyHash (s.name.getD "" ++
        pyOrS (s.address_line_1.getD "")
          ((s.google_places.getD ⟨none, none⟩).formattedAddress.getD "")))) := by
  refine ⟨fun h1 => ?_, fun h1 h2 => ?_, fun h1 h2 => ?_⟩
  · simp [get_store_id, h1]
  · simp [get_store_id, h1, h2]
  · simp [get_store_id, h1, h2]

/-- Witness for C5: one record per priority rule. -/
theorem get_store_id_priority_witness :
    get_store_id ⟨some ⟨some "G1", none⟩, some "9", none, none⟩ = "google:G1" ∧
    get_store_id ⟨none, some "42", some "N", none⟩ = "stockist:42" ∧
    get_store_id ⟨none, none, some "A", some "B"⟩ =
      "hash:" ++ toString (pyHash "AB") :=
  ⟨((get_store_id_priority ⟨some ⟨some "G1", none⟩, some "9", none, none⟩).1
      (by decide)).trans (by decide),
   ((get_store_id_priority ⟨none, some "42", some "N", none⟩).2.1
      (by decide) (by decide)).trans (by decide),
   ((get_store_id_priority ⟨none, none, some "A", some "B"⟩).2.2
      (by decide) (by decide)).trans (by decide)⟩

/-- C10: a record with neither a `name` key nor an `id` key is filtered
out before identity resolution, so the whole merge output (stores and
per-brand statistics alike) is as if the record were never supplied. -/
theorem merge_discards_keyless (pre post : List (String × List MergeStore))
    (b : String) (s1 s2 : List MergeStore) (r : MergeStore)
    (hname : r.name = none) (hid : r.id = none) :
    merge_brands (pre ++ (b, s1 ++ r :: s2) :: post) =
      merge_brands (pre ++ (b, s1 ++ s2) :: post) := by
  have hk : keepStore r = false := by simp [keepStore, hname, hid]
  have hfilter : (s1 ++ r :: s2).filter keepStore = (s1 ++ s2).filter keepStore := by
    simp [List.filter_append, List.filter_cons, hk]
  unfold merge_brands
  rw [List.foldl_append, List.foldl_append, List.foldl_cons, List.foldl_cons]
  have hd : ∀ st : MergeState,
      processDataset st (b, s1 ++ r :: s2) = processDataset st (b, s1 ++ s2) := by
    intro st
    unfold processDataset
    dsimp only
    rw [hfilter]
  rw [hd]

/-- Witness for C10 at a concrete keyless record. -/
theorem merge_discards_keyless_witness :
    merge_brands [("BrandA", [⟨none, none, none, some "addr"⟩, cexStore])] =
      merge_brands [("BrandA", [cexStore])] :=
  merge_discards_keyless [] [] "BrandA" [] [cexStore]
    ⟨none, none, none, some "addr"⟩ rfl rfl

/-- All identity keys of the kept records of all datasets, in order. -/
def allIds (inputs : List (String × List MergeStore)) : List String :=
  inputs.flatMap (fun input => (input.2.filter keepStore).map get_store_id)

theorem akeys_toFinset_processStore (b : String)
    (m : List (String × MergedStore)) (s : MergeStore) :
    (akeys (processStore b m s)).toFinset =
      insert (get_store_id s) (akeys m).toFinset := by
  unfold processStore
  cases hl : alookup m (get_store_id s) with
  | some v =>
    rw [akeys_aupdate]
    have hmem : get_store_id s ∈ akeys m :=
      (alookup_isSome_iff_mem_akeys m _).1 (by rw [hl]; rfl)
    exact (Finset.insert_eq_self.2 (List.mem_toFinset.2 hmem)).symm
  | none =>
    ext x
    simp [akeys, or_comm]

theorem akeys_toFinset_foldl (b : String) (l : List MergeStore) :
    ∀ m, (akeys (l.foldl (processStore b) m)).toFinset =
      (akeys m).toFinset ∪ (l.map get_store_id).toFinset := by
  induction l with
  | nil => intro m; simp
  | cons s l ih =>
    intro m
    rw [List.foldl_cons, ih, akeys_toFinset_processStore]
    ext x
    simp

theorem akeys_toFinset_mergedMap_aux (inputs : List (String × List MergeStore)) :
    ∀ m, (akeys (inputs.foldl
        (fun m input => (input.2.filter keepStore).foldl (processStore input.1) m) m)).toFinset =
      (akeys m).toFinset ∪ (allIds inputs).toFinset := by
  induction inputs with
  | nil => intro m; simp [allIds]
  | cons input inputs ih =>
    intro m
    rw [List.foldl_cons, ih, akeys_toFinset_foldl]
    ext x
    simp [allIds]

/-- C4: the set of identity keys of the merged directory is invariant
under permutation of the input datasets, while the `brands` sequence
within one store follows the supply order: merging brand A then brand B
records `[BrandA, BrandB]`, the reverse order records
`[BrandB, BrandA]`. -/
theorem merge_keyset_perm_invariant (inputs inputs' : List (String × List MergeStore))
    (hperm : inputs.Perm inputs') :
    (akeys (merge_brands inputs).1).toFinset =
      (akeys (merge_brands inputs').1).toFinset ∧
    (merge_brands [("BrandA", [cexStore]), ("BrandB", [cexStore])]).1 =
      [("stockist:7", ⟨cexStore, ["BrandA", "BrandB"], 2⟩)] ∧
    (merge_brands [("BrandB", [cexStore]), ("BrandA", [cexStore])]).1 =
      [("stockist:7", ⟨cexStore, ["BrandB", "BrandA"], 2⟩)] ∧
    (["BrandA", "BrandB"] : List String) ≠ ["BrandB", "BrandA"] := by
  refine ⟨?_, by decide, by decide, by decide⟩
  rw [merge_brands_fst, merge_brands_fst]
  unfold mergedMap
  rw [akeys_toFinset_mergedMap_aux, akeys_toFinset_mergedMap_aux]
  have hids : ∀ x, x ∈ allIds inputs ↔ x ∈ allIds inputs' := by
    intro x
    simp only [allIds, List.mem_flatMap]
    constructor
    · rintro ⟨a, ha, hx⟩
      exact ⟨a, hperm.mem_iff.1 ha, hx⟩
    · rintro ⟨a, ha, hx⟩
      exact ⟨a, hperm.mem_iff.2 ha, hx⟩
  rw [List.toFinset.ext hids]

/-- Witness for C4 at a concrete two-dataset swap. -/
theorem merge_keyset_perm_invariant_witness :
    (akeys (merge_brands [("BrandA", [cexStore]), ("BrandB", [cexStore])]).1).toFinset =
      (akeys (merge_brands [("BrandB", [cexStore]), ("BrandA", [cexStore])]).1).toFinset :=
  (merge_keyset_perm_invariant _ _
    (List.Perm.swap ("BrandB", [cexStore]) ("BrandA", [cexStore]) [])).1

end Merge

/-! ## Chain exclusion filter (shared shape of both scrapers) -/

/-- Python substring test `needle in haystack` on character lists. -/
def containsChars (needle : List Char) : List Char → Bool
  | [] => needle.isEmpty
  | b :: ys => needle.isPrefixOf (b :: ys) || containsChars needle ys

theorem containsChars_iff (needle haystack : List Char) :
    containsChars needle haystack = true ↔ needle <:+: haystack := by
  induction haystack with
  | nil => simp [containsChars, List.isEmpty_iff, List.infix_nil]
  | cons b ys ih =>
    simp [containsChars, List.isPrefixOf_iff_prefix, ih, List.infix_cons_iff]

/-- Python `s.lower()` as a character list (the denylists and names are
ASCII, where `Char.toLower` and `str.lower` agree). -/
def lowerChars (s : String) : List Char :=
  s.data.map Char.toLower

/-- The shared chain-filter body: empty/falsy name is never excluded,
otherwise the name is excluded when some denylist entry occurs in it
case-insensitively. -/
def excludeByChains (chains : List String) (store_name : String) : Bool :=
  if store_name = "" then false
  else chains.any (fun chain => containsChars (lowerChars chain) (lowerChars store_name))

theorem excludeByChains_iff (chains : List String) (store_name : String)
    (hch : ∀ chain ∈ chains, lowerChars chain ≠ []) :
    excludeByChains chains store_name = true ↔
      ∃ chain ∈ chains, lowerChars chain <:+: lowerChars store_name := by
  unfold excludeByChains
  by_cases hn : store_name = ""
  · rw [if_pos hn]
    constructor
    · intro h
      exact absurd h (by simp)
    · rintro ⟨chain, hmem, hinf⟩
      rw [hn] at hinf
      have hnil : lowerChars chain <:+: [] := hinf
      rw [List.infix_nil] at hnil
      exact (hch chain hmem hnil).elim
  · rw [if_neg hn, List.any_eq_true]
    constructor
    · rintro ⟨chain, hmem, hc⟩
      exact ⟨chain, hmem, (containsChars_iff _ _).1 hc⟩
    · rintro ⟨chain, hmem, hinf⟩
      exact ⟨chain, hmem, (containsChars_iff _ _).2 hinf⟩

/-! ## scrape_stockist_stores.py -/

namespace Stockist

/-- scrape_stockist_stores.py lines 32-36. -/
def EXCLUDED_CHAINS : List String :=
  ["Whole Foods", "Stop & Shop", "Target"]

/-- scrape_stockist_stores.py `should_exclude_store`. -/
def should_exclude_store (store_name : String) : Bool :=
  excludeByChains EXCLUDED_CHAINS store_name

/-- A raw Stockist location record, reduced to the fields the scraper
reads.  `none` means the key is absent. -/
structure SStore where
  id : Option Int
  name : Option String
  address : Option String
  address_line_1 : Option String
  city : Option String
deriving DecidableEq

/-- Loop body of the multi-region collection (scrape_stockist_stores.py
lines 164-167): a location with a truthy `id` is stored into the
`all_stores` dict under that id, replacing any earlier record with the
same id; otherwise it is dropped. -/
def insertLoc (acc : List (Int × SStore)) (store : SStore) : List (Int × SStore) :=
  match store.id with
  | some i => if i ≠ 0 then aupsert acc i store else acc
  | none => acc

/-- One region query (scrape_stockist_stores.py lines 146-177): a failed
request or parse (`none`) contributes nothing, a successful one folds
its `locations` into the dict. -/
def insertRegion (acc : List (Int × SStore)) (r : Option (List SStore)) :
    List (Int × SStore) :=
  match r with
  | none => acc
  | some locations => locations.foldl insertLoc acc

/-- scrape_stockist_stores.py `fetch_all_locations_from_api`, as a
function of the per-region query outcomes: the values of the
deduplicating dict, in insertion order. -/
def fetch_all_locations_from_api (regionResults : List (Option (List SStore))) :
    List SStore :=
  (regionResults.foldl insertRegion []).map Prod.snd

/-- Invariant of the dedup dict: keys are distinct and every entry is
stored under its own truthy id. -/
def goodMap (m : List (Int × SStore)) : Prop :=
  (akeys m).Nodup ∧ ∀ e ∈ m, e.2.id = some e.1

theorem goodMap_aupsert (m : List (Int × SStore)) (k : Int) (v : SStore)
    (hv : v.id = some k) (h : goodMap m) : goodMap (aupsert m k v) := by
  unfold aupsert
  by_cases hl : (alookup m k).isSome
  · rw [if_pos hl]
    refine ⟨by rw [akeys_aupdate]; exact h.1, ?_⟩
    intro e he
    rcases List.mem_map.1 he with ⟨e0, he0, heq⟩
    rw [← heq]
    by_cases h0 : e0.1 = k
    · rw [if_pos h0]
      rw [hv, h0]
    · rw [if_neg h0]
      exact h.2 e0 he0
  · rw [if_neg hl]
    have hk : k ∉ akeys m := by
      rw [← alookup_isSome_iff_mem_akeys]
      exact hl
    refine ⟨?_, ?_⟩
    · rw [akeys_append, List.nodup_append]
      refine ⟨h.1, List.nodup_singleton k, ?_⟩
      intro a ha hak
      have hae : a = k := by simpa [akeys] using hak
      exact hk (hae ▸ ha)
    · intro e he
      rcases List.mem_append.1 he with h1 | h1
      · exact h.2 e h1
      · rw [List.mem_singleton.1 h1]
        exact hv

theorem goodMap_insertLoc (acc : List (Int × SStore)) (store : SStore)
    (h : goodMap acc) : goodMap (insertLoc acc store) := by
  unfold insertLoc
  cases hid : store.id with
  | none => exact h
  | some i =>
    dsimp only
    by_cases hz : i ≠ 0
    · rw [if_pos hz]
      exact goodMap_aupsert acc i store hid h
    · rw [if_neg hz]
      exact h

theorem goodMap_foldl_insertLoc (locs : List SStore) :
    ∀ acc, goodMap acc → goodMap (locs.foldl insertLoc acc) := by
  induction locs with
  | nil => intro acc h; exact h
  | cons s locs ih =>
    intro acc h
    rw [List.foldl_cons]
    exact ih _ (goodMap_insertLoc acc s h)

theorem goodMap_insertRegion (acc : List (Int × SStore))
    (r : Option (List SStore)) (h : goodMap acc) : goodMap (insertRegion acc r) := by
  cases r with
  | none => exact h
  | some locs => exact goodMap_foldl_insertLoc locs acc h

theorem goodMap_foldl_insertRegion (rr : List (Option (List SStore))) :
    ∀ acc, goodMap acc → goodMap (rr.foldl insertRegion acc) := by
  induction rr with
  | nil => intro acc h; exact h
  | cons r rr ih =>
    intro acc h
    rw [List.foldl_cons]
    exact ih _ (goodMap_insertRegion acc r h)

theorem akeys_insertLoc_mono (acc : List (Int × SStore)) (store : SStore)
    (k : Int) (h : k ∈ akeys acc) : k ∈ akeys (insertLoc acc store) := by
  unfold insertLoc
  cases store.id with
  | none => exact h
  | some i =>
    dsimp only
    by_cases hz : i ≠ 0
    · rw [if_pos hz]
      unfold aupsert
      by_cases hl : (alookup acc i).isSome
      · rw [if_pos hl, akeys_aupdate]; exact h
      · rw [if_neg hl, akeys_append]; exact List.mem_append_left _ h
    · rw [if_neg hz]; exact h

theorem akeys_foldl_insertLoc_mono (locs : List SStore) :
    ∀ acc k, k ∈ akeys acc → k ∈ akeys (locs.foldl insertLoc acc) := by
  induction locs with
  | nil => intro acc k h; exact h
  | cons s locs ih =>
    intro acc k h
    rw [List.foldl_cons]
    exact ih _ k (akeys_insertLoc_mono acc s k h)

theorem akeys_insertRegion_mono (acc : List (Int × SStore))
    (r : Option (List SStore)) (k : Int) (h : k ∈ akeys acc) :
    k ∈ akeys (insertRegion acc r) := by
  cases r with
  | none => exact h
  | some locs => exact akeys_foldl_insertLoc_mono locs acc k h

theorem akeys_foldl_insertRegion_mono (rr : List (Option (List SStore))) :
    ∀ acc k, k ∈ akeys acc → k ∈ akeys (rr.foldl insertRegion acc) := by
  induction rr with
  | nil => intro acc k h; exact h
  | cons r rr ih =>
    intro acc k h
    rw [List.foldl_cons]
    exact ih _ k (akeys_insertRegion_mono acc r k h)

theorem akeys_insertLoc_self (acc : List (Int × SStore)) (store : SStore)
    (i : Int) (hid : store.id = some i) (hz : i ≠ 0) :
    i ∈ akeys (insertLoc acc store) := by
  unfold insertLoc
  rw [hid]
  dsimp only
  rw [if_pos hz]
  unfold aupsert
  by_cases hl : (alookup acc i).isSome
  · rw [if_pos hl, akeys_aupdate]
    exact (alookup_isSome_iff_mem_akeys acc i).1 hl
  · rw [if_neg hl, akeys_append]
    exact List.mem_append_right _ (by simp [akeys])

theorem akeys_foldl_insertLoc_self (locs : List SStore) :
    ∀ acc s, s ∈ locs → ∀ i, s.id = some i → i ≠ 0 →
      i ∈ akeys (locs.foldl insertLoc acc) := by
  induction locs with
  | nil => intro acc s h; exact absurd h (List.not_mem_nil s)
  | cons s0 locs ih =>
    intro acc s hs i hid hz
    rw [List.foldl_cons]
    rcases List.mem_cons.1 hs with h | h
    · exact akeys_foldl_insertLoc_mono locs _ i
        (h ▸ akeys_insertLoc_self acc s i hid hz)
    · exact ih _ s h i hid hz

/-- A region outcome that reports a location with the given id. -/
def regionHasId (i : Int) (r : Option (List SStore)) : Bool :=
  match r with
  | some locs => locs.any (fun s => s.id == some i)
  | none => false

theorem akeys_foldl_insertRegion_of_regionHasId (rr : List (Option (List SStore))) :
    ∀ acc i, i ≠ 0 → (∃ r ∈ rr, regionHasId i r = true) →
      i ∈ akeys (rr.foldl insertRegion acc) := by
  induction rr with
  | nil =>
    intro acc i _ h
    rcases h with ⟨r, hr, _⟩
    exact absurd hr (List.not_mem_nil r)
  | cons r0 rr ih =>
    intro acc i hz h
    rw [List.foldl_cons]
    rcases h with ⟨r, hr, hhas⟩
    rcases List.mem_cons.1 hr with h1 | h1
    · subst h1
      cases r with
      | none => exact absurd hhas (by simp [regionHasId])
      | some locs =>
        have hex : ∃ s ∈ locs, s.id = some i := by simpa [regionHasId] using hhas
        rcases hex with ⟨s, hs, hsi⟩
        exact akeys_foldl_insertRegion_mono rr _ i
          (akeys_foldl_insertLoc_self locs acc s hs i hsi hz)
    · exact ih _ i hz ⟨r, h1, hhas⟩

/-- C7: a platform id reported by more than one region query appears
exactly once in the adapter output. -/
theorem geo_sampling_dedup (regionResults : List (Option (List SStore)))
    (i : Int) (hi : i ≠ 0)
    (h2 : 2 ≤ regionResults.countP (regionHasId i)) :
    (fetch_all_locations_from_api regionResults).countP
      (fun s => s.id == some i) = 1 := by
  have hex : ∃ r ∈ regionResults, regionHasId i r = true :=
    List.countP_pos_iff.1 (lt_of_lt_of_le (by norm_num) h2)
  have hgood : goodMap (regionResults.foldl insertRegion []) :=
    goodMap_foldl_insertRegion regionResults []
      ⟨List.nodup_nil, fun e he => absurd he (List.not_mem_nil e)⟩
  have hmem : i ∈ akeys (regionResults.foldl insertRegion []) :=
    akeys_foldl_insertRegion_of_regionHasId regionResults [] i hi hex
  unfold fetch_all_locations_from_api
  rw [List.countP_map]
  have hcong : List.countP ((fun s => s.id == some i) ∘ Prod.snd)
      (regionResults.foldl insertRegion []) =
      List.countP (fun e => e.1 == i) (regionResults.foldl insertRegion []) := by
    apply List.countP_congr
    intro e he
    have := hgood.2 e he
    simp [this]
  rw [hcong]
  have : List.countP (fun e => e.1 == i) (regionResults.foldl insertRegion []) =
      List.count i (akeys (regionResults.foldl insertRegion [])) := by
    unfold akeys
    rw [List.count, List.countP_map]
    apply List.countP_congr
    intro e _
    simp [BEq.comm]
  rw [this]
  exact List.count_eq_one_of_mem hgood.1 hmem

/-- Witness for C7: one id reported by two regions, output deduplicated
to one record. -/
theorem geo_sampling_dedup_witness :
    ((7 : Int) ≠ 0 ∧
      2 ≤ ([some [⟨some 7, some "A", none, none, none⟩],
            some [⟨some 7, some "B", none, none, none⟩]] :
          List (Option (List SStore))).countP (regionHasId 7)) ∧
    (fetch_all_locations_from_api
        [some [⟨some 7, some "A", none, none, none⟩],
         some [⟨some 7, some "B", none, none, none⟩]]).countP
      (fun s => s.id == some 7) = 1 :=
  ⟨⟨by decide, by decide⟩,
   geo_sampling_dedup
     [some [⟨some 7, some "A", none, none, none⟩],
      some [⟨some 7, some "B", none, none, none⟩]] 7 (by decide) (by decide)⟩

/-- The per-record hash of the final dedup pass
(scrape_stockist_stores.py lines 472-484): the truthy id when present,
else name, address (or address_line_1) and city joined with bars. -/
def dedupKey (store : SStore) : String :=
  match store.id with
  | some i =>
      if i ≠ 0 then "id:" ++ toString i
      else store.name.getD "" ++ "|" ++
        pyOrS (store.address.getD "") (store.address_line_1.getD "") ++ "|" ++
        store.city.getD ""
  | none =>
      store.name.getD "" ++ "|" ++
        pyOrS (store.address.getD "") (store.address_line_1.getD "") ++ "|" ++
        store.city.getD ""

/-- The final dedup pass (scrape_stockist_stores.py lines 470-492):
keep the first record for each hash, preserving order. -/
def dedupStores (stores_data : List SStore) : List SStore :=
  (stores_data.foldl
    (fun acc store =>
      if dedupKey store ∈ acc.1 then acc
      else (acc.1 ++ [dedupKey store], acc.2 ++ [store]))
    ([], [])).2

/-- The scraper output object (scrape_stockist_stores.py lines 517-523),
without the wall-clock and URL metadata. -/
structure ScrapeResult where
  total_stores : Nat
  stores : List SStore
deriving DecidableEq

/-- The tail of scrape_stockist_stores (lines 441-529) as a function of
the records accumulated by the acquisition strategies and of what the
page-content fallback would recover: optional page-content fallback,
dedup, chain filter, then the output object is always built and written.
The second component records that the output file write executes. -/
def scrape_stockist_finalize (stores_data pageScrape : List SStore) :
    ScrapeResult × Bool :=
  let d1 := if stores_data.isEmpty then pageScrape else stores_data
  let d2 := if d1.isEmpty then d1 else dedupStores d1
  let d3 := if d2.isEmpty then d2
    else d2.filter (fun s => !(should_exclude_store (s.name.getD "")))
  (⟨d3.length, d3⟩, true)

end Stockist

/-! ### extract_stockist_user_id — the ordered pattern cascade

The five patterns of scrape_stockist_stores.py lines 74-102 are embedded
as backtracking matchers over character lists with Python `re.search`
semantics: leftmost starting position first and, at one position, greedy
quantifiers with backtracking.  All patterns run under `re.IGNORECASE`;
the single capture group is always `(u\d+)` and keeps the original
characters. -/

namespace Stockist

/-- Match a literal (given in lowercase) case-insensitively; returns the
remaining input. -/
def matchLitCI : List Char → List Char → Option (List Char)
  | [], cs => some cs
  | _ :: _, [] => none
  | l :: ls, c :: cs => if c.toLower = l then matchLitCI ls cs else none

/-- Greedy `\d+` : the maximal run of digits and the rest. -/
def takeDigits : List Char → List Char × List Char
  | [] => ([], [])
  | c :: cs =>
      if c.isDigit then
        ((c :: (takeDigits cs).1), (takeDigits cs).2)
      else ([], c :: cs)

/-- The capture group `(u\d+)` (case-insensitive `u`, at least one
digit, greedy): captured characters and the rest. -/
def matchUId : List Char → Option (List Char × List Char)
  | [] => none
  | c :: rest =>
      if c.toLower = 'u' then
        match takeDigits rest with
        | ([], _) => none
        | (ds, rest2) => some (c :: ds, rest2)
      else none

/-- `(u\d+)` as a final pattern element: just the capture. -/
def uidCapture (cs : List Char) : Option (List Char) :=
  (matchUId cs).map Prod.fst

/-- A double or single quote character. -/
def quoteChar (c : Char) : Bool :=
  c == Char.ofNat 34 || c == Char.ofNat 39

/-- The greedy optional quote of patterns 3 and 4, `["\']?`, followed by
the capture group: try with the quote consumed first, then without. -/
def optQuoteThenUId (cs : List Char) : Option (List Char) :=
  match cs with
  | [] => uidCapture []
  | c :: rest =>
      if quoteChar c then
        match uidCapture rest with
        | some g => some g
        | none => uidCapture (c :: rest)
      else uidCapture (c :: rest)

/-- Greedy unbounded character-class star followed by a continuation:
consume as many `p`-characters as possible, backtracking to shorter
consumptions when the continuation fails. -/
def starThen (p : Char → Bool) (k : List Char → Option (List Char)) :
    List Char → Option (List Char)
  | [] => k []
  | c :: rest =>
      if p c then
        match starThen p k rest with
        | some g => some g
        | none => k (c :: rest)
      else k (c :: rest)

/-- Greedy bounded character-class repetition (at most `n` characters)
followed by a continuation, with the same backtracking order. -/
def starBoundedThen (p : Char → Bool) (k : List Char → Option (List Char)) :
    Nat → List Char → Option (List Char)
  | _, [] => k []
  | 0, c :: rest => k (c :: rest)
  | n + 1, c :: rest =>
      if p c then
        match starBoundedThen p k n rest with
        | some g => some g
        | none => k (c :: rest)
      else k (c :: rest)

/-- Pattern 1 at one position: `stockist\.co/api/v1/(u\d+)`. -/
def pat1At (cs : List Char) : Option (List Char) :=
  match matchLitCI "stockist.co/api/v1/".data cs with
  | none => none
  | some rest => uidCapture rest

/-- Pattern 2 at one position: `tag=(u\d+)`. -/
def pat2At (cs : List Char) : Option (List Char) :=
  match matchLitCI "tag=".data cs with
  | none => none
  | some rest => uidCapture rest

/-- Pattern 3 at one position: `data-stockist[^>]*["\']?(u\d+)["\']?`
(the trailing optional quote can always match empty, so it constrains
nothing). -/
def pat3At (cs : List Char) : Option (List Char) :=
  match matchLitCI "data-stockist".data cs with
  | none => none
  | some rest => starThen (fun c => !(c == Char.ofNat 62)) optQuoteThenUId rest

/-- Pattern 4 at one position: `Stockist\.init\(["\']?(u\d+)`. -/
def pat4At (cs : List Char) : Option (List Char) :=
  match matchLitCI "stockist.init(".data cs with
  | none => none
  | some rest => optQuoteThenUId rest

/-- Pattern 5 at one position: `stockist[^u]{0,100}(u\d+)` (under
IGNORECASE the class `[^u]` also excludes `U`). -/
def pat5At (cs : List Char) : Option (List Char) :=
  match matchLitCI "stockist".data cs with
  | none => none
  | some rest => starBoundedThen (fun c => !(c.toLower == 'u')) uidCapture 100 rest

/-- `re.search`: try the pattern at each starting position from the
left, returning the first capture. -/
def searchPat (patAt : List Char → Option (List Char)) :
    List Char → Option (List Char)
  | [] => patAt []
  | c :: rest =>
      match patAt (c :: rest) with
      | some g => some g
      | none => searchPat patAt rest

/-- scrape_stockist_stores.py `extract_stockist_user_id`: the five
patterns tried in order, most specific first, first match wins. -/
def extract_stockist_user_id (page_source : String) : Option String :=
  match searchPat pat1At page_source.data with
  | some g => some (String.mk g)
  | none =>
  match searchPat pat2At page_source.data with
  | some g => some (String.mk g)
  | none =>
  match searchPat pat3At page_source.data with
  | some g => some (String.mk g)
  | none =>
  match searchPat pat4At page_source.data with
  | some g => some (String.mk g)
  | none =>
  match searchPat pat5At page_source.data with
  | some g => some (String.mk g)
  | none => none

/-- C8: on markup matched by both the precise API-path pattern
(pattern 1) and the loose proximity pattern (pattern 5), the detector
returns the capture of the precise pattern: the cascade runs from most
to least specific and stops at the first match. -/
theorem detector_precise_pattern_wins (page : String) (g : List Char)
    (h1 : searchPat pat1At page.data = some g)
    (_h5 : (searchPat pat5At page.data).isSome = true) :
    extract_stockist_user_id page = some (String.mk g) := by
  unfold extract_stockist_user_id
  rw [h1]

/-- Witness for C8: a page whose markup matches both pattern 1 and
pattern 5; the detector returns the pattern-1 capture `u22327`. -/
theorem detector_precise_pattern_wins_witness :
    (searchPat pat1At "<script src=https://stockist.co/api/v1/u22327/widget.js>".data =
        some "u22327".data ∧
      (searchPat pat5At "<script src=https://stockist.co/api/v1/u22327/widget.js>".data).isSome = true) ∧
    extract_stockist_user_id "<script src=https://stockist.co/api/v1/u22327/widget.js>" =
      some "u22327" :=
  ⟨⟨by decide, by decide⟩,
   (detector_precise_pattern_wins
      "<script src=https://stockist.co/api/v1/u22327/widget.js>"
      "u22327".data (by decide) (by decide)).trans (by decide)⟩

end Stockist

/-! ## scrape_storerocket_stores.py -/

namespace StoreRocket

/-- scrape_storerocket_stores.py lines 25-32. -/
def EXCLUDED_CHAINS : List String :=
  ["Whole Foods", "Stop & Shop", "Target", "Walmart", "Kroger", "Safeway"]

/-- scrape_storerocket_stores.py `should_exclude_store`. -/
def should_exclude_store (store_name : String) : Bool :=
  excludeByChains EXCLUDED_CHAINS store_name

/-- A raw StoreRocket location record, reduced to the one field the
scraper reads (`name`; all other fields pass through untouched). -/
structure RStore where
  name : Option String
deriving DecidableEq

/-- The scraper output object (scrape_storerocket_stores.py lines
197-203), without the wall-clock and URL metadata. -/
structure RResult where
  total_stores : Nat
  stores : List RStore
deriving DecidableEq

/-- scrape_storerocket_stores.py `scrape_storerocket_stores` as a
function of the extracted account id and of the locations the API
returns: both zero-record branches (lines 161-181) return an empty
result object early, before the file write at line 208, so the second
component (whether the output file write executes) is `false` there. -/
def scrape_storerocket_stores (account_id : Option String)
    (locations : List RStore) : RResult × Bool :=
  if pyTruthy account_id = false then (⟨0, []⟩, false)
  else if locations.isEmpty then (⟨0, []⟩, false)
  else
    let stores_data := locations.filter
      (fun s => !(should_exclude_store (s.name.getD "")))
    (⟨stores_data.length, stores_data⟩, true)

end StoreRocket

/-- C9: the chain exclusion filter of both scrapers is a pure function
that drops a record exactly when its name contains, case-insensitively,
some entry of that scraper's fixed denylist; in particular the name
`Acme Whole Foods Express` is dropped since `Whole Foods` is on both
denylists. -/
theorem chain_filter_characterization (name : String) :
    (Stockist.should_exclude_store name = true ↔
      ∃ chain ∈ Stockist.EXCLUDED_CHAINS, lowerChars chain <:+: lowerChars name) ∧
    (StoreRocket.should_exclude_store name = true ↔
      ∃ chain ∈ StoreRocket.EXCLUDED_CHAINS, lowerChars chain <:+: lowerChars name) ∧
    "Whole Foods" ∈ Stockist.EXCLUDED_CHAINS ∧
    "Whole Foods" ∈ StoreRocket.EXCLUDED_CHAINS ∧
    Stockist.should_exclude_store "Acme Whole Foods Express" = true ∧
    StoreRocket.should_exclude_store "Acme Whole Foods Express" = true := by
  refine ⟨?_, ?_, by decide, by decide, by decide, by decide⟩
  · exact excludeByChains_iff _ name (by decide)
  · exact excludeByChains_iff _ name (by decide)

/-- C2 counterexample: a StoreRocket scrape with a detected account id
whose API returns zero locations returns the empty-store result object
but skips the output file write (write flag `false`), contradicting the
claim that every zero-record run still produces the output file. -/
theorem storerocket_zero_records_skips_write_cex :
    StoreRocket.scrape_storerocket_stores (some "vZ4vPay8Qd") [] =
      (⟨0, []⟩, false) ∧
    (StoreRocket.scrape_storerocket_stores (some "vZ4vPay8Qd") []).2 ≠ true :=
  ⟨by decide, by decide⟩

/-- C2 amended: a Stockist run whose strategies all recover zero records
still writes a valid output file with `stores = []` and
`total_stores = 0`; a StoreRocket run with zero records (no account id,
or an empty API result) returns the same valid empty result object but
returns before the file write. -/
theorem zero_record_scrape_amended (account_id : Option String)
    (locations : List StoreRocket.RStore) :
    Stockist.scrape_stockist_finalize [] [] = (⟨0, []⟩, true) ∧
    (pyTruthy account_id = false ∨ locations = [] →
      StoreRocket.scrape_storerocket_stores account_id locations =
        (⟨0, []⟩, false)) := by
  refine ⟨by decide, ?_⟩
  intro h
  unfold StoreRocket.scrape_storerocket_stores
  rcases h with h | h
  · rw [if_pos (by rw [h])]
  · by_cases ha : pyTruthy account_id = false
    · rw [if_pos (by rw [ha])]
    · rw [if_neg ha, if_pos (by rw [h]; rfl)]

/-- Witness for the amended C2 theorem. -/
theorem zero_record_scrape_amended_witness :
    StoreRocket.scrape_storerocket_stores (some "acct") [] = (⟨0, []⟩, false) :=
  (zero_record_scrape_amended (some "acct") []).2 (Or.inr rfl)

/-! ## test.py — StorePoint multi-endpoint fetch -/

namespace StorePoint

/-- A JSON value as far as `fetch_storepoint_stores` inspects one:
an object, an array, or a string leaf. -/
inductive SPJson where
  | obj : List (String × SPJson) → SPJson
  | arr : List SPJson → SPJson
  | str : String → SPJson

/-- What one HTTP endpoint did for this run: whether `requests.get`
raised, the status code, the outcome of `resp.json()` (`none` = parse
error), and the outcome of the JSONP fallback on `resp.text` — `none`
when the brace regex found no match, `some none` when `json.loads` on
the matched span raised, `some (some v)` when it parsed to `v`. -/
structure SPResponse where
  requestError : Bool
  status : Nat
  jsonBody : Option SPJson
  jsonpExtract : Option (Option SPJson)

/-- One iteration of the endpoint loop (test.py lines 55-77): `some v`
means the function returns `v`, `none` means it moves to the next
candidate URL.  A 200 response whose body parses as a JSON object
returns its `locations` member immediately, defaulting to the empty
list; a non-object or unparseable body falls back to the JSONP object,
returned only when it is an object with a `locations` member; every
other outcome (transport error, non-200, parse failures) continues. -/
def tryStorepointEndpoint (r : SPResponse) : Option SPJson :=
  if r.requestError then none
  else if r.status = 200 then
    match r.jsonBody with
    | some (SPJson.obj fields) => some ((alookup fields "locations").getD (SPJson.arr []))
    | _ =>
      match r.jsonpExtract with
      | some (some (SPJson.obj fields)) =>
          match alookup fields "locations" with
          | some v => some v
          | none => none
      | _ => none
  else none

/-- test.py lines 51-54: the two candidate endpoint URL templates. -/
def possible_urls (storepoint_id : String) : List String :=
  ["https://storepoint.co/api/get_locations?storepoint_id=" ++ storepoint_id,
   "https://api.storepoint.co/v1/locations?storepoint_id=" ++ storepoint_id]

/-- The endpoint loop of `fetch_storepoint_stores`: first endpoint that
yields a value wins; otherwise the empty list (test.py line 79). -/
def fetchLoop (http : String → SPResponse) : List String → SPJson
  | [] => SPJson.arr []
  | u :: rest =>
      match tryStorepointEndpoint (http u) with
      | some v => v
      | none => fetchLoop http rest

/-- test.py `fetch_storepoint_stores`, as a function of the id and of
what each URL returns. -/
def fetch_storepoint_stores (storepoint_id : String)
    (http : String → SPResponse) : SPJson :=
  fetchLoop http (possible_urls storepoint_id)

/-- Endpoint behaviors for the C3 counterexample: the first candidate
URL answers 200 with the JSON object with no members, the second
answers 200 with a non-empty locations list. -/
def cexHttp : String → SPResponse := fun u =>
  if u = "https://storepoint.co/api/get_locations?storepoint_id=SP1"
  then ⟨false, 200, some (SPJson.obj []), none⟩
  else ⟨false, 200,
    some (SPJson.obj [("locations", SPJson.arr [SPJson.str "Store A"])]), none⟩

/-- C3 counterexample: when the first endpoint yields a parseable but
empty result and the second a non-empty one, the function returns the
first endpoint empty list — not the non-empty result the claim
promises. -/
theorem storepoint_first_nonempty_cex :
    fetch_storepoint_stores "SP1" cexHttp = SPJson.arr [] ∧
    tryStorepointEndpoint
        (cexHttp "https://api.storepoint.co/v1/locations?storepoint_id=SP1") =
      some (SPJson.arr [SPJson.str "Store A"]) ∧
    SPJson.arr [] ≠ SPJson.arr [SPJson.str "Store A"] :=
  ⟨rfl, rfl, by simp⟩

/-- C3 amended: the adapter tries the candidate endpoints in order and
returns the locations value of the first endpoint that yields parseable
data (a 200 JSON object — its `locations` member defaulting to the
empty list — or a JSONP-embedded object with a `locations` member),
even when that value is empty; when no endpoint yields parseable data
it returns an empty list rather than raising. -/
theorem storepoint_fetch_first_parseable (sid : String)
    (http : String → SPResponse) :
    (∀ v, tryStorepointEndpoint
        (http ("https://storepoint.co/api/get_locations?storepoint_id=" ++ sid)) = some v →
      fetch_storepoint_stores sid http = v) ∧
    (∀ v, tryStorepointEndpoint
        (http ("https://storepoint.co/api/get_locations?storepoint_id=" ++ sid)) = none →
      tryStorepointEndpoint
        (http ("https://api.storepoint.co/v1/locations?storepoint_id=" ++ sid)) = some v →
      fetch_storepoint_stores sid http = v) ∧
    (tryStorepointEndpoint
        (http ("https://storepoint.co/api/get_locations?storepoint_id=" ++ sid)) = none →
      tryStorepointEndpoint
        (http ("https://api.storepoint.co/v1/locations?storepoint_id=" ++ sid)) = none →
      fetch_storepoint_stores sid http = SPJson.arr []) := by
  refine ⟨fun v h1 => ?_, fun v h1 h2 => ?_, fun h1 h2 => ?_⟩
  · unfold fetch_storepoint_stores possible_urls
    simp [fetchLoop, h1]
  · unfold fetch_storepoint_stores possible_urls
    simp [fetchLoop, h1, h2]
  · unfold fetch_storepoint_stores possible_urls
    simp [fetchLoop, h1, h2]

/-- Endpoint behaviors for the C3 witness: the first candidate URL
fails at transport level, the second parses with a non-empty list. -/
def witHttp : String → SPResponse := fun u =>
  if u = "https://storepoint.co/api/get_locations?storepoint_id=SP1"
  then ⟨true, 0, none, none⟩
  else ⟨false, 200,
    some (SPJson.obj [("locations", SPJson.arr [SPJson.str "S"])]), none⟩

/-- Witness for the amended C3 theorem. -/
theorem storepoint_fetch_first_parseable_witness :
    fetch_storepoint_stores "SP1" witHttp = SPJson.arr [SPJson.str "S"] :=
  (storepoint_fetch_first_parseable "SP1" witHttp).2.1
    (SPJson.arr [SPJson.str "S"]) rfl rfl

end StorePoint

end StoreLocator
